import Mathlib

/-!
Verification of the Boundary Classification & Depth/Volume Estimation Engine
of the Mine Activity Detection repository.

The development shallowly embeds the two core modules:

* `src/detection/boundary_analyzer.py` (class `BoundaryAnalyzer`):
  footprint classification against an authorized boundary and the
  violation report derived from it.
* `src/depth_volume/calculator.py` (class `DepthVolumeCalculator`):
  reference-elevation estimation, depth-map construction, and the three
  volume-integration methods.

Planar geometry (areas, intersections, point containment) is performed in
the source by the shapely library; it is embedded as an abstract geometry
interface (`GeomOps`) respectively as containment/bounds oracles
(`PixPolygon`), so that every theorem quantifies over the behaviour of the
geometry kernel, and witnesses instantiate it with concrete finite data.
Machine floats are modelled by exact rationals.
-/

namespace MineDetection

/-- Abstract interface to the planar geometry kernel (shapely) as used by
`boundary_analyzer.py`: polygon area, binary intersection and difference,
emptiness (Python truthiness of a geometry is `not is_empty`), validity,
and centroid coordinates. -/
structure GeomOps (G : Type) where
  area : G → ℚ
  intersection : G → G → G
  difference : G → G → G
  is_empty : G → Bool
  is_valid : G → Bool
  centroid : G → ℚ × ℚ

/-- One entry of the `partial` list produced by
`BoundaryAnalyzer.classify_mining_areas` (a Python dict with these keys). -/
structure PartialRecord (G : Type) where
  polygon : G
  inside_area : ℚ
  outside_area : ℚ
  inside_percentage : ℚ
  inside_part : G
  outside_part : G
  deriving DecidableEq

/-- The dictionary returned by `BoundaryAnalyzer.classify_mining_areas`. -/
structure ClassResult (G : Type) where
  legal : List G
  illegal : List G
  partialSites : List (PartialRecord G)
  authorized_boundary : G
  deriving DecidableEq

/-- `intersection_area` of one loop iteration of `classify_mining_areas`:
`intersection = poly.intersection(authorized_boundary)` followed by
`intersection_area = intersection.area if intersection else 0`. -/
def intersection_area {G : Type} (ops : GeomOps G) (boundary poly : G) : ℚ :=
  let intersection := ops.intersection poly boundary
  if ops.is_empty intersection then 0 else ops.area intersection

/-- `inside_percentage` of one loop iteration of `classify_mining_areas`:
`(intersection_area / poly.area) * 100` when `poly.area > 0`, else `0`. -/
def inside_percentage {G : Type} (ops : GeomOps G) (boundary poly : G) : ℚ :=
  if 0 < ops.area poly then intersection_area ops boundary poly / ops.area poly * 100
  else 0

/-- The dict appended to `partial_polygons` for a partially-inside footprint. -/
def partialRecordOf {G : Type} (ops : GeomOps G) (boundary poly : G) : PartialRecord G :=
  { polygon := poly
    inside_area := intersection_area ops boundary poly
    outside_area := ops.area poly - intersection_area ops boundary poly
    inside_percentage := inside_percentage ops boundary poly
    inside_part := ops.intersection poly boundary
    outside_part := ops.difference poly boundary }

/-- One iteration of the loop body of `classify_mining_areas`: the current
footprint is appended to `legal_polygons` when `inside_percentage >= 95`,
to `illegal_polygons` when `inside_percentage <= 5`, and otherwise to
`partial_polygons` together with its inside/outside partition. -/
def classifyStep {G : Type} (ops : GeomOps G) (boundary : G)
    (acc : ClassResult G) (poly : G) : ClassResult G :=
  if 95 ≤ inside_percentage ops boundary poly then
    { acc with legal := acc.legal ++ [poly] }
  else if inside_percentage ops boundary poly ≤ 5 then
    { acc with illegal := acc.illegal ++ [poly] }
  else
    { acc with partialSites := acc.partialSites ++ [partialRecordOf ops boundary poly] }

/-- `BoundaryAnalyzer.classify_mining_areas(detected_polygons, authorized_boundary)`
with a non-null boundary (the `None` case raises `ValueError` before the loop
and is outside this embedding). -/
def classify_mining_areas {G : Type} (ops : GeomOps G)
    (detected_polygons : List G) (authorized_boundary : G) : ClassResult G :=
  detected_polygons.foldl (classifyStep ops authorized_boundary)
    { legal := [], illegal := [], partialSites := [], authorized_boundary := authorized_boundary }

/-- The Boolean condition under which a footprint lands in `legal_polygons`. -/
def isLegalB {G : Type} (ops : GeomOps G) (boundary poly : G) : Bool :=
  decide (95 ≤ inside_percentage ops boundary poly)

/-- The Boolean condition under which a footprint lands in `illegal_polygons`. -/
def isIllegalB {G : Type} (ops : GeomOps G) (boundary poly : G) : Bool :=
  decide (¬ 95 ≤ inside_percentage ops boundary poly ∧ inside_percentage ops boundary poly ≤ 5)

/-- The Boolean condition under which a footprint lands in `partial_polygons`. -/
def isPartialB {G : Type} (ops : GeomOps G) (boundary poly : G) : Bool :=
  decide (¬ 95 ≤ inside_percentage ops boundary poly ∧ ¬ inside_percentage ops boundary poly ≤ 5)

theorem classify_foldl_char {G : Type} (ops : GeomOps G) (boundary : G)
    (ps : List G) (acc : ClassResult G) :
    (ps.foldl (classifyStep ops boundary) acc).legal
        = acc.legal ++ ps.filter (isLegalB ops boundary)
    ∧ (ps.foldl (classifyStep ops boundary) acc).illegal
        = acc.illegal ++ ps.filter (isIllegalB ops boundary)
    ∧ (ps.foldl (classifyStep ops boundary) acc).partialSites
        = acc.partialSites
          ++ (ps.filter (isPartialB ops boundary)).map (partialRecordOf ops boundary)
    ∧ (ps.foldl (classifyStep ops boundary) acc).authorized_boundary
        = acc.authorized_boundary := by
  induction ps generalizing acc with
  | nil => simp
  | cons p t ih =>
    rcases ih (classifyStep ops boundary acc p) with ⟨h1, h2, h3, h4⟩
    by_cases hL : 95 ≤ inside_percentage ops boundary p
    · refine ⟨?_, ?_, ?_, ?_⟩
      · rw [List.foldl_cons, h1]; simp [classifyStep, hL, isLegalB, List.filter_cons]
      · rw [List.foldl_cons, h2]; simp [classifyStep, hL, isIllegalB, List.filter_cons]
      · rw [List.foldl_cons, h3]; simp [classifyStep, hL, isPartialB, List.filter_cons]
      · rw [List.foldl_cons, h4]; simp [classifyStep, hL]
    · by_cases hI : inside_percentage ops boundary p ≤ 5
      · refine ⟨?_, ?_, ?_, ?_⟩
        · rw [List.foldl_cons, h1]; simp [classifyStep, hL, hI, isLegalB, List.filter_cons]
        · rw [List.foldl_cons, h2]; simp [classifyStep, hL, hI, isIllegalB, List.filter_cons]
        · rw [List.foldl_cons, h3]; simp [classifyStep, hL, hI, isPartialB, List.filter_cons]
        · rw [List.foldl_cons, h4]; simp [classifyStep, hL, hI]
      · refine ⟨?_, ?_, ?_, ?_⟩
        · rw [List.foldl_cons, h1]; simp [classifyStep, hL, hI, isLegalB, List.filter_cons]
        · rw [List.foldl_cons, h2]; simp [classifyStep, hL, hI, isIllegalB, List.filter_cons]
        · rw [List.foldl_cons, h3]; simp [classifyStep, hL, hI, isPartialB, List.filter_cons]
        · rw [List.foldl_cons, h4]; simp [classifyStep, hL, hI]

theorem intersection_area_eq {G : Type} (ops : GeomOps G)
    (hE : ∀ g, ops.is_empty g = true → ops.area g = 0) (boundary poly : G) :
    intersection_area ops boundary poly = ops.area (ops.intersection poly boundary) := by
  by_cases h : ops.is_empty (ops.intersection poly boundary) = true
  · simp [intersection_area, h, hE _ h]
  · simp [intersection_area, h]

theorem isLegalB_eq {G : Type} (ops : GeomOps G) (b : G)
    (hE : ∀ g, ops.is_empty g = true → ops.area g = 0) (p : G) :
    isLegalB ops b p
      = decide (0 < ops.area p
          ∧ 19/20 ≤ ops.area (ops.intersection p b) / ops.area p) := by
  unfold isLegalB
  rw [decide_eq_decide]
  unfold inside_percentage
  rw [intersection_area_eq ops hE b p]
  by_cases h : 0 < ops.area p
  · rw [if_pos h]
    constructor
    · intro hx; exact ⟨h, by linarith⟩
    · rintro ⟨-, hx⟩; linarith
  · rw [if_neg h]
    constructor
    · intro hx; norm_num at hx
    · rintro ⟨h0, -⟩; exact absurd h0 h

theorem isIllegalB_eq {G : Type} (ops : GeomOps G) (b : G)
    (hA : ∀ g, 0 ≤ ops.area g)
    (hE : ∀ g, ops.is_empty g = true → ops.area g = 0) (p : G) :
    isIllegalB ops b p
      = decide (ops.area p = 0
          ∨ ops.area (ops.intersection p b) / ops.area p ≤ 1/20) := by
  unfold isIllegalB
  rw [decide_eq_decide]
  unfold inside_percentage
  rw [intersection_area_eq ops hE b p]
  by_cases h : 0 < ops.area p
  · rw [if_pos h]
    constructor
    · rintro ⟨-, hx⟩; right; linarith
    · rintro (h0 | hx)
      · exact absurd h0 (by positivity)
      · exact ⟨by nlinarith, by nlinarith⟩
  · rw [if_neg h]
    have h0 : ops.area p = 0 := le_antisymm (not_lt.mp h) (hA p)
    constructor
    · intro _; exact Or.inl h0
    · intro _; norm_num

theorem isPartialB_eq {G : Type} (ops : GeomOps G) (b : G)
    (hA : ∀ g, 0 ≤ ops.area g)
    (hE : ∀ g, ops.is_empty g = true → ops.area g = 0) (p : G) :
    isPartialB ops b p
      = decide (1/20 < ops.area (ops.intersection p b) / ops.area p
          ∧ ops.area (ops.intersection p b) / ops.area p < 19/20) := by
  unfold isPartialB
  rw [decide_eq_decide]
  unfold inside_percentage
  rw [intersection_area_eq ops hE b p]
  by_cases h : 0 < ops.area p
  · rw [if_pos h]
    constructor
    · rintro ⟨hx, hy⟩
      rw [not_le] at hx hy
      exact ⟨by linarith, by linarith⟩
    · rintro ⟨hx, hy⟩
      constructor <;> rw [not_le] <;> linarith
  · rw [if_neg h]
    have h0 : ops.area p = 0 := le_antisymm (not_lt.mp h) (hA p)
    rw [h0, div_zero]
    constructor
    · rintro ⟨-, hy⟩; exact absurd (by norm_num : (0:ℚ) ≤ 5) hy
    · rintro ⟨hx, -⟩; exact absurd hx (by norm_num)

theorem length_filter_three {α : Type} (p1 p2 p3 : α → Bool) (l : List α)
    (h : ∀ x ∈ l, (p1 x = true ∧ p2 x = false ∧ p3 x = false)
        ∨ (p1 x = false ∧ p2 x = true ∧ p3 x = false)
        ∨ (p1 x = false ∧ p2 x = false ∧ p3 x = true)) :
    (l.filter p1).length + (l.filter p2).length + (l.filter p3).length = l.length := by
  induction l with
  | nil => simp
  | cons a t ih =>
    have ht := ih (fun x hx => h x (List.mem_cons_of_mem a hx))
    rcases h a (List.mem_cons_self a t) with ⟨e1, e2, e3⟩ | ⟨e1, e2, e3⟩ | ⟨e1, e2, e3⟩ <;>
      simp only [List.filter_cons, e1, e2, e3, if_true, if_false, List.length_cons,
        Bool.false_eq_true, ite_false, ite_true] <;> omega

theorem classify_trichotomy {G : Type} (ops : GeomOps G) (b p : G) :
    (isLegalB ops b p = true ∧ isIllegalB ops b p = false ∧ isPartialB ops b p = false)
    ∨ (isLegalB ops b p = false ∧ isIllegalB ops b p = true ∧ isPartialB ops b p = false)
    ∨ (isLegalB ops b p = false ∧ isIllegalB ops b p = false ∧ isPartialB ops b p = true) := by
  unfold isLegalB isIllegalB isPartialB
  by_cases hL : 95 ≤ inside_percentage ops b p
  · exact Or.inl (by simp [hL])
  · by_cases hI : inside_percentage ops b p ≤ 5
    · exact Or.inr (Or.inl (by simp [hL, hI]))
    · exact Or.inr (Or.inr (by simp [hL, hI]))

/-- C1: classification is total and mutually exclusive, with the documented
thresholds: writing `f p` for `insideFraction = area(p ∩ boundary) / area(p)`,
a footprint lands in `legal` exactly when its area is positive and
`f p ≥ 0.95`, in `illegal` exactly when its area is `0` or `f p ≤ 0.05`, and
in `partial` exactly when `0.05 < f p < 0.95`; the three lists exhaust the
input. The hypotheses state two facts of the geometry kernel: areas are
non-negative and the empty geometry has area `0`. -/
theorem classification_total_and_thresholds {G : Type} (ops : GeomOps G)
    (detected_polygons : List G) (boundary : G)
    (hA : ∀ g, 0 ≤ ops.area g)
    (hE : ∀ g, ops.is_empty g = true → ops.area g = 0) :
    (classify_mining_areas ops detected_polygons boundary).legal
      = detected_polygons.filter (fun p =>
          decide (0 < ops.area p
            ∧ 19/20 ≤ ops.area (ops.intersection p boundary) / ops.area p))
    ∧ (classify_mining_areas ops detected_polygons boundary).illegal
      = detected_polygons.filter (fun p =>
          decide (ops.area p = 0
            ∨ ops.area (ops.intersection p boundary) / ops.area p ≤ 1/20))
    ∧ ((classify_mining_areas ops detected_polygons boundary).partialSites.map (·.polygon))
      = detected_polygons.filter (fun p =>
          decide (1/20 < ops.area (ops.intersection p boundary) / ops.area p
            ∧ ops.area (ops.intersection p boundary) / ops.area p < 19/20))
    ∧ (classify_mining_areas ops detected_polygons boundary).legal.length
        + (classify_mining_areas ops detected_polygons boundary).illegal.length
        + (classify_mining_areas ops detected_polygons boundary).partialSites.length
        = detected_polygons.length := by
  obtain ⟨h1, h2, h3, -⟩ :=
    classify_foldl_char ops boundary detected_polygons
      { legal := [], illegal := [], partialSites := [], authorized_boundary := boundary }
  unfold classify_mining_areas
  rw [h1, h2, h3]
  simp only [List.nil_append]
  refine ⟨?_, ?_, ?_, ?_⟩
  · exact List.filter_congr (fun p _ => isLegalB_eq ops boundary hE p)
  · exact List.filter_congr (fun p _ => isIllegalB_eq ops boundary hA hE p)
  · rw [List.map_map]
    have : ((fun x => x.polygon) ∘ partialRecordOf ops boundary) = (fun p : G => p) := by
      funext p; rfl
    rw [this, List.map_id']
    exact List.filter_congr (fun p _ => isPartialB_eq ops boundary hA hE p)
  · rw [List.length_map]
    exact length_filter_three _ _ _ detected_polygons
      (fun x _ => classify_trichotomy ops boundary x)

/-- C2 amended: `classify_mining_areas` performs no validity check and no
repair: its output is invariant under arbitrary changes of the kernel's
`is_valid` predicate, and every footprint — valid or not — is intersected
as-is and placed (unmodified) in one of the three result lists; the result
dictionary carries no skipped-site diagnostic. -/
theorem classify_ignores_validity {G : Type} (ops : GeomOps G) (v : G → Bool)
    (detected_polygons : List G) (boundary : G) :
    classify_mining_areas { ops with is_valid := v } detected_polygons boundary
      = classify_mining_areas ops detected_polygons boundary
    ∧ ∀ p ∈ detected_polygons,
        p ∈ (classify_mining_areas ops detected_polygons boundary).legal
        ∨ p ∈ (classify_mining_areas ops detected_polygons boundary).illegal
        ∨ p ∈ ((classify_mining_areas ops detected_polygons boundary).partialSites.map
            (·.polygon)) := by
  constructor
  · rfl
  · intro p hp
    obtain ⟨h1, h2, h3, -⟩ :=
      classify_foldl_char ops boundary detected_polygons
        { legal := [], illegal := [], partialSites := [], authorized_boundary := boundary }
    unfold classify_mining_areas
    rw [h1, h2, h3]
    simp only [List.nil_append]
    rcases classify_trichotomy ops boundary p with ⟨e1, -, -⟩ | ⟨-, e2, -⟩ | ⟨-, -, e3⟩
    · exact Or.inl (List.mem_filter.mpr ⟨hp, e1⟩)
    · exact Or.inr (Or.inl (List.mem_filter.mpr ⟨hp, e2⟩))
    · refine Or.inr (Or.inr ?_)
      rw [List.map_map]
      have hcomp : ((fun x => x.polygon) ∘ partialRecordOf ops boundary) = (fun q : G => q) := by
        funext q; rfl
      rw [hcomp, List.map_id']
      exact List.mem_filter.mpr ⟨hp, e3⟩

/-- A concrete finite universe of geometries, used to instantiate the
abstract kernel in witnesses. The tokens denote the following shapely
geometries in the boundary coordinate space: `inBox` = box(10,10,20,20)
(area 100, fully inside the boundary); `outBox` = box(200,200,210,210)
(area 100, disjoint from the boundary); `straddle` = a footprint of area
100 of which 60 lies inside the boundary; `bowtie` = the self-crossing
quadrilateral (0,0),(2,2),(2,0),(0,2) — an invalid geometry whose signed
shoelace area is 0 and whose envelope is disjoint from the boundary;
`boundaryB` = box(0,0,100,100); `interFull`, `interStraddle`,
`diffStraddle`, `emptyG` are the intersections/differences that arise. -/
inductive CG where
  | inBox | outBox | straddle | bowtie | boundaryB
  | interFull | interStraddle | diffStraddle | emptyG
  deriving DecidableEq, Fintype

def cArea : CG → ℚ
  | .inBox => 100 | .outBox => 100 | .straddle => 100 | .bowtie => 0
  | .boundaryB => 10000 | .interFull => 100 | .interStraddle => 60
  | .diffStraddle => 40 | .emptyG => 0

def cInter : CG → CG → CG
  | .inBox, .boundaryB => .interFull
  | .straddle, .boundaryB => .interStraddle
  | _, _ => .emptyG

def cDiff : CG → CG → CG
  | .outBox, .boundaryB => .outBox
  | .straddle, .boundaryB => .diffStraddle
  | .bowtie, .boundaryB => .bowtie
  | _, _ => .emptyG

def cCentroid : CG → ℚ × ℚ
  | .inBox => (15, 15) | .outBox => (205, 205) | .straddle => (50, 50)
  | .bowtie => (1, 1) | _ => (0, 0)

/-- The concrete instantiation of the geometry kernel on `CG`. -/
def cOps : GeomOps CG :=
  { area := cArea
    intersection := cInter
    difference := cDiff
    is_empty := fun g => decide (g = CG.emptyG)
    is_valid := fun g => decide (g ≠ CG.bowtie)
    centroid := cCentroid }

theorem classification_total_and_thresholds_witness :
    (classify_mining_areas cOps [CG.inBox, CG.outBox, CG.straddle, CG.bowtie]
        CG.boundaryB).legal.length
      + (classify_mining_areas cOps [CG.inBox, CG.outBox, CG.straddle, CG.bowtie]
          CG.boundaryB).illegal.length
      + (classify_mining_areas cOps [CG.inBox, CG.outBox, CG.straddle, CG.bowtie]
          CG.boundaryB).partialSites.length
      = 4 :=
  (classification_total_and_thresholds cOps [CG.inBox, CG.outBox, CG.straddle, CG.bowtie]
    CG.boundaryB (by decide) (by decide)).2.2.2

/-- C2 counterexample: the invalid self-crossing `bowtie` footprint
(`is_valid` = false) is neither repaired nor reported as skipped:
`classify_mining_areas` intersects it as-is and files the unmodified
geometry under `illegal`; the result dictionary has no skipped-site
entry. -/
theorem invalid_footprint_processed_unrepaired :
    cOps.is_valid CG.bowtie = false
    ∧ classify_mining_areas cOps [CG.bowtie] CG.boundaryB
        = { legal := [], illegal := [CG.bowtie], partialSites := [],
            authorized_boundary := CG.boundaryB } := by
  refine ⟨by decide, by decide⟩

theorem classify_ignores_validity_witness :
    CG.bowtie ∈ (classify_mining_areas cOps [CG.bowtie] CG.boundaryB).legal
    ∨ CG.bowtie ∈ (classify_mining_areas cOps [CG.bowtie] CG.boundaryB).illegal
    ∨ CG.bowtie ∈ ((classify_mining_areas cOps [CG.bowtie] CG.boundaryB).partialSites.map
        (·.polygon)) :=
  (classify_ignores_validity cOps (fun _ => true) [CG.bowtie] CG.boundaryB).2
    CG.bowtie (by decide)

/-- A violation record produced by `BoundaryAnalyzer.generate_violation_report`;
the two constructors are the two dict shapes emitted for fully-illegal and
partially-outside sites. -/
inductive Violation (G : Type) where
  | fully_outside (violation_id : String) (area_sqm area_hectares : ℚ)
      (centroid_x centroid_y : ℚ) (severity : String) (polygon : G)
  | partially_outside (violation_id : String)
      (total_area_sqm outside_area_sqm outside_area_hectares outside_percentage : ℚ)
      (centroid_x centroid_y : ℚ) (severity : String) (polygon : G) (outside_polygon : G)
  deriving DecidableEq

/-- `BoundaryAnalyzer.generate_violation_report(classification_result, statistics)`.
The `statistics` argument is unused by the source body and therefore omitted.
Area fields multiply pixel-space areas by the literal constant `100`
(source comment: "Assuming pixel_size=10m"). -/
def generate_violation_report {G : Type} (ops : GeomOps G) (r : ClassResult G) :
    List (Violation G) :=
  (r.illegal.enum.map fun ip =>
    Violation.fully_outside ("ILLEGAL_" ++ toString (ip.1 + 1))
      (ops.area ip.2 * 100) (ops.area ip.2 * 100 / 10000)
      (ops.centroid ip.2).1 (ops.centroid ip.2).2 "high" ip.2)
  ++ (r.partialSites.enum.map fun it =>
    Violation.partially_outside ("PARTIAL_" ++ toString (it.1 + 1))
      (ops.area it.2.polygon * 100) (it.2.outside_area * 100)
      (it.2.outside_area * 100 / 10000) (100 - it.2.inside_percentage)
      (ops.centroid it.2.polygon).1 (ops.centroid it.2.polygon).2
      (if 50 < it.2.inside_percentage then "medium" else "high")
      it.2.polygon it.2.outside_part)

/-- C9: every violation record computes its area fields by multiplying the
pixel-space polygon area by the fixed constant `100`, i.e. it hardcodes a
10-metre pixel; consequently, for any pixel size `ps` the reported figure
relates to the true area `area · ps²` exactly by the factor `(ps/10)²`. -/
theorem violation_report_fixed_pixel_area {G : Type} (ops : GeomOps G)
    (r : ClassResult G) (i : ℕ) :
    (∀ poly, r.illegal[i]? = some poly →
      (generate_violation_report ops r)[i]?
        = some (Violation.fully_outside ("ILLEGAL_" ++ toString (i + 1))
            (ops.area poly * 100) (ops.area poly * 100 / 10000)
            (ops.centroid poly).1 (ops.centroid poly).2 "high" poly)
      ∧ ∀ ps : ℚ, (ops.area poly * 100) * (ps / 10)^2 = ops.area poly * ps^2)
    ∧ (∀ pt, r.partialSites[i]? = some pt →
      (generate_violation_report ops r)[r.illegal.length + i]?
        = some (Violation.partially_outside ("PARTIAL_" ++ toString (i + 1))
            (ops.area pt.polygon * 100) (pt.outside_area * 100)
            (pt.outside_area * 100 / 10000) (100 - pt.inside_percentage)
            (ops.centroid pt.polygon).1 (ops.centroid pt.polygon).2
            (if 50 < pt.inside_percentage then "medium" else "high")
            pt.polygon pt.outside_part)
      ∧ ∀ ps : ℚ, (ops.area pt.polygon * 100) * (ps / 10)^2 = ops.area pt.polygon * ps^2
          ∧ (pt.outside_area * 100) * (ps / 10)^2 = pt.outside_area * ps^2) := by
  constructor
  · intro poly h
    obtain ⟨hlt, -⟩ := List.getElem?_eq_some.mp h
    constructor
    · have hlen : i < (r.illegal.enum.map (fun ip =>
          Violation.fully_outside ("ILLEGAL_" ++ toString (ip.1 + 1))
            (ops.area ip.2 * 100) (ops.area ip.2 * 100 / 10000)
            (ops.centroid ip.2).1 (ops.centroid ip.2).2 "high" ip.2)).length := by
        simpa using hlt
      rw [generate_violation_report, List.getElem?_append_left hlen,
        List.getElem?_map, List.getElem?_enum, h]
      rfl
    · intro ps; ring
  · intro pt h
    constructor
    · have hlen : (r.illegal.enum.map (fun ip =>
          Violation.fully_outside ("ILLEGAL_" ++ toString (ip.1 + 1))
            (ops.area ip.2 * 100) (ops.area ip.2 * 100 / 10000)
            (ops.centroid ip.2).1 (ops.centroid ip.2).2 "high" ip.2)).length
          ≤ r.illegal.length + i := by
        simp
      rw [generate_violation_report, List.getElem?_append_right hlen]
      simp only [List.length_map, List.enum_length, Nat.add_sub_cancel_left]
      rw [List.getElem?_map, List.getElem?_enum, h]
      rfl
    · intro ps; exact ⟨by ring, by ring⟩

/-- A concrete classification result over `CG`: one legal, one illegal and
one partially-inside site (60 % inside). -/
def r9 : ClassResult CG :=
  { legal := [CG.inBox]
    illegal := [CG.outBox]
    partialSites := [{ polygon := CG.straddle, inside_area := 60, outside_area := 40,
                       inside_percentage := 60, inside_part := CG.interStraddle,
                       outside_part := CG.diffStraddle }]
    authorized_boundary := CG.boundaryB }

theorem violation_report_fixed_pixel_area_witness :
    (generate_violation_report cOps r9)[(0 : ℕ)]?
      = some (Violation.fully_outside ("ILLEGAL_" ++ toString (0 + 1))
          (cOps.area CG.outBox * 100) (cOps.area CG.outBox * 100 / 10000)
          (cOps.centroid CG.outBox).1 (cOps.centroid CG.outBox).2 "high" CG.outBox) :=
  ((violation_report_fixed_pixel_area cOps r9 0).1 CG.outBox (by decide)).1

/-! ## Depth and volume calculation (`src/depth_volume/calculator.py`) -/

/-- The Digital Elevation Model held by `DepthVolumeCalculator`: a `h × w`
grid of elevations, `val row col` being `self.dem[row, col]`. -/
structure Dem where
  h : ℕ
  w : ℕ
  val : ℕ → ℕ → ℚ

/-- Python `int(q)`: truncation toward zero (`q.num` and `q.den` are the
normalized numerator/denominator, `q.den > 0`, and `Int.tdiv` truncates
toward zero). -/
def pyint (q : ℚ) : ℤ :=
  q.num.tdiv (q.den : ℤ)

/-- A shapely geometry as seen by the calculator: its `bounds`
`(minx, miny, maxx, maxy)` and its point-containment predicate
`contains(Point(x, y))`, sampled only at integer cell centers. -/
structure PixPolygon where
  minx : ℚ
  miny : ℚ
  maxx : ℚ
  maxy : ℚ
  containsPt : ℤ → ℤ → Bool

/-- Statistics dict of `calculate_depth_map`. `np.std` (population standard
deviation) is the square root of `var_depth`; the variance is kept instead
of the standard deviation so that all fields stay rational (`std_depth = 0`
iff `var_depth = 0`, and `std_depth` is computed over exactly the cells
`var_depth` is). -/
structure DepthStats where
  mean_depth : ℚ
  max_depth : ℚ
  min_depth : ℚ
  var_depth : ℚ
  reference_elevation : ℚ
  deriving DecidableEq

/-- Sum of a list of rationals (`np.sum` / built-in `sum`). -/
def qsum (xs : List ℚ) : ℚ := xs.foldr (· + ·) 0

/-- `np.mean`. On an empty list NumPy yields NaN (with a runtime warning,
not an exception); the embedding returns `0` there, and every use below is
guarded so that the empty case is never observable. -/
def npMean (xs : List ℚ) : ℚ := qsum xs / xs.length

/-- `np.max` on a non-empty list (the empty case never arises at its
call sites: they are guarded by `len > 0`). -/
def npMax : List ℚ → ℚ
  | [] => 0
  | x :: xs => xs.foldl max x

/-- `np.min` on a non-empty list. -/
def npMin : List ℚ → ℚ
  | [] => 0
  | x :: xs => xs.foldl min x

/-- Population variance: the square of `np.std`. -/
def npVar (xs : List ℚ) : ℚ := npMean (xs.map (fun x => (x - npMean xs) ^ 2))

/-- The statistics dict built at the end of `calculate_depth_map` from
`valid_depths = depth_map[depth_map > 0]`. -/
def depthStatsOf (valid_depths : List ℚ) (reference_elevation : ℚ) : DepthStats :=
  if 0 < valid_depths.length then
    { mean_depth := npMean valid_depths
      max_depth := npMax valid_depths
      min_depth := npMin valid_depths
      var_depth := npVar valid_depths
      reference_elevation := reference_elevation }
  else
    { mean_depth := 0, max_depth := 0, min_depth := 0, var_depth := 0
      reference_elevation := reference_elevation }

/-- `DepthVolumeCalculator.calculate_depth_map(polygon, reference_elevation)`.
The bounding box is clamped by `int(max(0, ·))` / `int(min(shape, ·))`;
`np.zeros` raises `ValueError: negative dimensions are not allowed` when a
clamped dimension is negative, which the embedding returns as the error
case. Each cell whose center lies inside the polygon carries
`max(0, reference_elevation − elevation)`; all other cells stay `0`. -/
def calculate_depth_map (dem : Dem) (polygon : PixPolygon)
    (reference_elevation : ℚ) : Except String (List (List ℚ) × DepthStats) :=
  let minx := pyint (max 0 polygon.minx)
  let miny := pyint (max 0 polygon.miny)
  let maxx := pyint (min (dem.w : ℚ) polygon.maxx)
  let maxy := pyint (min (dem.h : ℚ) polygon.maxy)
  if maxy - miny < 0 ∨ maxx - minx < 0 then
    Except.error "negative dimensions are not allowed"
  else
    let depth_map := (List.range (maxy - miny).toNat).map (fun (dy : ℕ) =>
      (List.range (maxx - minx).toNat).map (fun (dx : ℕ) =>
        if polygon.containsPt (minx + (dx : ℤ)) (miny + (dy : ℤ)) then
          max 0 (reference_elevation
            - dem.val (miny + (dy : ℤ)).toNat (minx + (dx : ℤ)).toNat)
        else 0))
    let valid_depths := (depth_map.flatten).filter (fun d => 0 < d)
    Except.ok (depth_map, depthStatsOf valid_depths reference_elevation)

theorem depthStatsOf_reference (v : List ℚ) (r : ℚ) :
    (depthStatsOf v r).reference_elevation = r := by
  unfold depthStatsOf; split <;> rfl

/-- C3: in a successfully built depth map, the cell at row `dy`, column `dx`
equals `max(0, referenceElevation − elevation)` when the cell center lies
inside the footprint and `0` otherwise; hence every cell is `≥ 0`. The
statistics are computed over exactly the strictly positive cells
(`depth_map[depth_map > 0]`): when none exists all four statistics are `0`,
and in both cases `referenceElevation` is recorded. -/
theorem depth_map_cells_and_stats (dem : Dem) (polygon : PixPolygon)
    (reference_elevation : ℚ) (dm : List (List ℚ)) (stats : DepthStats)
    (h : calculate_depth_map dem polygon reference_elevation = Except.ok (dm, stats)) :
    (∀ row ∈ dm, ∀ c ∈ row, 0 ≤ c)
    ∧ (∀ (dy dx : ℕ) (row : List ℚ) (c : ℚ), dm[dy]? = some row → row[dx]? = some c →
        c = (if polygon.containsPt (pyint (max 0 polygon.minx) + dx)
                (pyint (max 0 polygon.miny) + dy) then
              max 0 (reference_elevation
                - dem.val (pyint (max 0 polygon.miny) + (dy : ℤ)).toNat
                    (pyint (max 0 polygon.minx) + (dx : ℤ)).toNat)
            else 0))
    ∧ stats.reference_elevation = reference_elevation
    ∧ ((dm.flatten).filter (fun d => 0 < d) = [] →
        stats = ⟨0, 0, 0, 0, reference_elevation⟩)
    ∧ (∀ vd, vd = (dm.flatten).filter (fun d => 0 < d) → vd ≠ [] →
        stats.mean_depth = npMean vd ∧ stats.max_depth = npMax vd
        ∧ stats.min_depth = npMin vd ∧ stats.var_depth = npVar vd) := by
  simp only [calculate_depth_map] at h
  split at h
  · exact absurd h (by simp)
  · rw [Except.ok.injEq, Prod.mk.injEq] at h
    obtain ⟨hdm, hstats⟩ := h
    subst hdm
    refine ⟨?_, ?_, ?_, ?_, ?_⟩
    · intro row hrow c hc
      rw [List.mem_map] at hrow
      obtain ⟨dy, -, hrow⟩ := hrow
      rw [← hrow, List.mem_map] at hc
      obtain ⟨dx, -, hc⟩ := hc
      rw [← hc]
      split
      · exact le_max_left 0 _
      · exact le_refl 0
    · intro dy dx row c hrow hc
      obtain ⟨hdy, hval⟩ := List.getElem?_eq_some_iff.mp hrow
      simp only [List.getElem_map, List.getElem_range] at hval
      subst hval
      obtain ⟨hdx, hcval⟩ := List.getElem?_eq_some_iff.mp hc
      simp only [List.getElem_map, List.getElem_range] at hcval
      exact hcval.symm
    · rw [← hstats]; exact depthStatsOf_reference _ _
    · intro hempty
      rw [← hstats]
      unfold depthStatsOf
      rw [hempty]
      simp
    · intro vd hvd hne
      rw [← hstats]
      unfold depthStatsOf
      rw [if_pos (by rw [← hvd]; exact List.length_pos.mpr hne)]
      rw [← hvd]
      exact ⟨rfl, rfl, rfl, rfl⟩

/-- A small `Dem` and a footprint for concrete evaluation of
`calculate_depth_map`: a flat elevation-5 surface and the footprint
box(-0.5, -0.5, 1.5, 1.5), whose interior contains the integer cell
centers `(0,0), (0,1), (1,0), (1,1)`. -/
def demW : Dem := ⟨2, 2, fun _ _ => 5⟩

def polyW : PixPolygon :=
  ⟨-1/2, -1/2, 3/2, 3/2, fun x y => decide (0 ≤ x ∧ x ≤ 1 ∧ 0 ≤ y ∧ y ≤ 1)⟩

theorem calculate_depth_map_demW :
    calculate_depth_map demW polyW 7 = Except.ok ([[2]], ⟨2, 2, 2, 0, 7⟩) := by
  have hminx : pyint (max 0 polyW.minx) = 0 := by norm_num [polyW, pyint]
  have hminy : pyint (max 0 polyW.miny) = 0 := by norm_num [polyW, pyint]
  have hmaxx : pyint (min (demW.w : ℚ) polyW.maxx) = 1 := by
    norm_num [polyW, demW, pyint]; decide
  have hmaxy : pyint (min (demW.h : ℚ) polyW.maxy) = 1 := by
    norm_num [polyW, demW, pyint]; decide
  rw [calculate_depth_map, hminx, hminy, hmaxx, hmaxy]
  norm_num [List.range_succ, demW, polyW, depthStatsOf, npMean, npMax, npMin, npVar, qsum]

theorem depth_map_cells_and_stats_witness :
    (⟨2, 2, 2, 0, 7⟩ : DepthStats).reference_elevation = 7 :=
  (depth_map_cells_and_stats demW polyW 7 [[2]] ⟨2, 2, 2, 0, 7⟩ calculate_depth_map_demW).2.2.1

/-! ### Reference elevation estimation (`estimate_reference_elevation`) -/

/-- The elevations collected by the ring-sampling loop of
`estimate_reference_elevation`: for every cell `(x, y)` of the bounding box
of `buffer_zone` — clamped by `int(max(0, ·))` / `int(min(shape, ·))` —
whose center the buffer zone contains and whose elevation is `> 0`
(elevations `≤ 0` are treated as nodata by the source), the elevation, in
row-major loop order. `buffer_zone` models the shapely geometry
`polygon.buffer(buffer_distance).difference(polygon)`. -/
def ringElevations (dem : Dem) (buffer_zone : PixPolygon) : List ℚ :=
  let minx := pyint (max 0 buffer_zone.minx)
  let miny := pyint (max 0 buffer_zone.miny)
  let maxx := pyint (min (dem.w : ℚ) buffer_zone.maxx)
  let maxy := pyint (min (dem.h : ℚ) buffer_zone.maxy)
  ((List.range (maxy - miny).toNat).map (fun (dy : ℕ) =>
    (List.range (maxx - minx).toNat).filterMap (fun (dx : ℕ) =>
      let x := minx + (dx : ℤ)
      let y := miny + (dy : ℤ)
      let elevation := dem.val y.toNat x.toNat
      if buffer_zone.containsPt x y ∧ 0 < elevation then some elevation else none))).flatten

/-- The fallback sample of `estimate_reference_elevation`:
`crop = self.dem[miny:maxy, minx:maxx]; crop[crop > 0]` in row-major order,
with the clamped bounds of `buffer_zone`. NumPy interprets a negative slice
stop as counting from the end of the axis, which can only happen here for
`maxx`/`maxy` (the `minx`/`miny` are clamped to `≥ 0`). -/
def cropElevations (dem : Dem) (buffer_zone : PixPolygon) : List ℚ :=
  let minx := pyint (max 0 buffer_zone.minx)
  let miny := pyint (max 0 buffer_zone.miny)
  let maxx := pyint (min (dem.w : ℚ) buffer_zone.maxx)
  let maxy := pyint (min (dem.h : ℚ) buffer_zone.maxy)
  let stopx := if maxx < 0 then (dem.w : ℤ) + maxx else maxx
  let stopy := if maxy < 0 then (dem.h : ℤ) + maxy else maxy
  ((List.range (stopy - miny).toNat).map (fun (dy : ℕ) =>
    (List.range (stopx - minx).toNat).filterMap (fun (dx : ℕ) =>
      let e := dem.val (miny + (dy : ℤ)).toNat (minx + (dx : ℤ)).toNat
      if 0 < e then some e else none))).flatten

/-- Insertion into a sorted list (used to model NumPy's sort). -/
def insSortQ (x : ℚ) : List ℚ → List ℚ
  | [] => [x]
  | y :: ys => if x ≤ y then x :: y :: ys else y :: insSortQ x ys

/-- Insertion sort of a rational list. -/
def sortQ (xs : List ℚ) : List ℚ := xs.foldr insSortQ []

/-- `np.median`: middle element of the sorted list, or the mean of the two
middle elements for even length. -/
def npMedian (xs : List ℚ) : ℚ :=
  let s := sortQ xs
  let n := s.length
  if n % 2 = 1 then s.getD (n / 2) 0
  else (s.getD (n / 2 - 1) 0 + s.getD (n / 2) 0) / 2

/-- `np.percentile(xs, 75)` with NumPy's default linear interpolation:
position `0.75·(n−1)` interpolated between the neighbouring sorted
elements. -/
def npPercentile75 (xs : List ℚ) : ℚ :=
  let s := sortQ xs
  let n := s.length
  let pos : ℚ := (3 / 4) * ((n : ℚ) - 1)
  let k : ℕ := (pyint pos).toNat
  let f : ℚ := pos - (k : ℚ)
  s.getD k 0 + f * (s.getD (k + 1) (s.getD k 0) - s.getD k 0)

/-- The `method` dispatch at the end of `estimate_reference_elevation`;
an unrecognized method string falls through to the mean, as in the
source. -/
def refAggregate (method : String) (elevations : List ℚ) : ℚ :=
  if method = "mean" then npMean elevations
  else if method = "median" then npMedian elevations
  else if method = "max" then npMax elevations
  else if method = "percentile" then npPercentile75 elevations
  else npMean elevations

/-- `DepthVolumeCalculator.estimate_reference_elevation(polygon, method,
buffer_distance)`. The shapely buffer ring
`polygon.buffer(buffer_distance).difference(polygon)` is passed as the
`buffer_zone` oracle; the source samples the ring, falls back to the valid
cells of the (buffer-zone-bounds) crop when the ring sample is empty, and
returns `0.0` when that is empty too. Every step is total: the function
cannot raise. -/
def estimate_reference_elevation (dem : Dem) (buffer_zone : PixPolygon)
    (method : String) : ℚ :=
  let elevations := ringElevations dem buffer_zone
  let elevations2 := if elevations.isEmpty then cropElevations dem buffer_zone
    else elevations
  if elevations2.length = 0 then 0
  else refAggregate method elevations2

/-- A 4×4 flat raster, for the out-of-range counterexample. -/
def demC4 : Dem := ⟨4, 4, fun _ _ => 5⟩

/-- The footprint box(6,1,8,3), lying entirely to the right of `demC4`. -/
def polyC4 : PixPolygon :=
  ⟨6, 1, 8, 3, fun x y => decide (6 < x ∧ x < 8 ∧ 1 < y ∧ y < 3)⟩

/-- C4 counterexample: a footprint lying entirely outside the raster
(bounds (6,1)–(8,3) against a 4×4 raster) is *not* recovered by clamping:
the clamped width `min(4, 8) − max(0, 6) = −2` is negative and `np.zeros`
raises `ValueError: negative dimensions are not allowed`. -/
theorem depth_map_raises_when_outside :
    calculate_depth_map demC4 polyC4 10 = Except.error "negative dimensions are not allowed" := by
  have hminx : pyint (max 0 polyC4.minx) = 6 := by norm_num [polyC4, pyint]
  have hmaxx : pyint (min (demC4.w : ℚ) polyC4.maxx) = 4 := by
    norm_num [polyC4, demC4, pyint]
  rw [calculate_depth_map, hminx, hmaxx]
  norm_num

/-- C4 amended: clamping recovers exactly the footprints whose clamped
bounding box is non-negative in both axes — `calculate_depth_map` succeeds
iff the clamped `min ≤ max` holds in both axes, and raises the negative-
dimensions error otherwise (in particular for a footprint entirely outside
the raster); `estimate_reference_elevation` never raises: its value is
always the ring aggregate, the bounding-box-crop aggregate, or `0.0`. -/
theorem depth_map_ok_iff_clamped_box_nonneg (dem : Dem) (polygon : PixPolygon)
    (reference_elevation : ℚ) (method : String) :
    ((∃ out, calculate_depth_map dem polygon reference_elevation = Except.ok out)
      ↔ (pyint (max 0 polygon.minx) ≤ pyint (min (dem.w : ℚ) polygon.maxx)
         ∧ pyint (max 0 polygon.miny) ≤ pyint (min (dem.h : ℚ) polygon.maxy)))
    ∧ (estimate_reference_elevation dem polygon method
        = refAggregate method (ringElevations dem polygon)
      ∨ estimate_reference_elevation dem polygon method
        = refAggregate method (cropElevations dem polygon)
      ∨ estimate_reference_elevation dem polygon method = 0) := by
  constructor
  · simp only [calculate_depth_map]
    split
    · next hcond =>
      constructor
      · rintro ⟨out, hout⟩
        exact absurd hout (by simp)
      · rintro ⟨hx, hy⟩
        exact absurd hcond (by omega)
    · next hcond =>
      constructor
      · intro _
        constructor <;> omega
      · intro _
        exact ⟨_, rfl⟩
  · unfold estimate_reference_elevation
    by_cases hring : (ringElevations dem polygon).isEmpty
    · by_cases hcrop : (cropElevations dem polygon).length = 0
      · right; right; simp [hring, hcrop]
      · right; left; simp [hring, hcrop]
    · by_cases hlen : (ringElevations dem polygon).length = 0
      · exact absurd (List.isEmpty_iff.mpr (List.length_eq_zero.mp hlen)) hring
      · left; simp [hring, hlen]

/-- Stated after the claim's wording, for comparison with the source: "if
the buffer ring yields no valid cells, the estimator falls back to
aggregating all valid cells within the *footprint's* bounding box". It is
identical to `estimate_reference_elevation` except that the fallback crop
is clamped from the footprint's own bounds; the source instead crops the
buffer zone's bounds. -/
def estimate_reference_spec (dem : Dem) (polygon buffer_zone : PixPolygon)
    (method : String) : ℚ :=
  let elevations := ringElevations dem buffer_zone
  let elevations2 := if elevations.isEmpty then cropElevations dem polygon
    else elevations
  if elevations2.length = 0 then 0
  else refAggregate method elevations2

/-- A 4×4 raster whose only positive elevation (7) sits at row 1, col 1;
all other cells are 0 (nodata under the `> 0` validity rule). -/
def dem6 : Dem := ⟨4, 4, fun y x => if y = 1 ∧ x = 1 then 7 else 0⟩

/-- The footprint box(2,2,3,3): its strict interior contains no integer
cell center. -/
def poly6 : PixPolygon := ⟨2, 2, 3, 3, fun _ _ => false⟩

/-- The buffer ring of `poly6` for buffer distance 0.6:
`box(2,2,3,3).buffer(0.6).difference(box(2,2,3,3))` has bounds
(1.4, 1.4, 3.6, 3.6) and contains no integer cell center (every integer
point is either at distance ≥ 1 from the box or on the box itself, which
the difference removes). -/
def ring6 : PixPolygon := ⟨7/5, 7/5, 18/5, 18/5, fun _ _ => false⟩

theorem ringElevations_dem6_ring6 : ringElevations dem6 ring6 = [] := by
  simp [ringElevations, ring6]

theorem cropElevations_dem6_ring6 : cropElevations dem6 ring6 = [7] := by
  have hminx : pyint (max 0 ring6.minx) = 1 := by norm_num [ring6, pyint]; decide
  have hminy : pyint (max 0 ring6.miny) = 1 := by norm_num [ring6, pyint]; decide
  have hmaxx : pyint (min (dem6.w : ℚ) ring6.maxx) = 3 := by
    norm_num [ring6, dem6, pyint]; decide
  have hmaxy : pyint (min (dem6.h : ℚ) ring6.maxy) = 3 := by
    norm_num [ring6, dem6, pyint]; decide
  rw [cropElevations, hminx, hminy, hmaxx, hmaxy]
  norm_num [List.range_succ, dem6, Int.toNat_ofNat, Int.toNat_one, Int.toNat_zero]
  decide

/-- C6 counterexample: with the ring sample empty, the source aggregates
the valid cells of the *buffer zone's* clamped bounding box (here crop
rows/cols 1–2, catching the elevation 7 at (1,1)) and returns 7, while the
claim's fallback — the *footprint's* bounding box (cell (2,2) only, value
0) — would return 0.0. -/
theorem reference_fallback_uses_buffer_bbox :
    ringElevations dem6 ring6 = []
    ∧ estimate_reference_elevation dem6 ring6 "mean" = 7
    ∧ estimate_reference_spec dem6 poly6 ring6 "mean" = 0 := by
  refine ⟨ringElevations_dem6_ring6, ?_, ?_⟩
  · rw [estimate_reference_elevation, ringElevations_dem6_ring6, cropElevations_dem6_ring6]
    norm_num [refAggregate, npMean, qsum]
  · have hcrop : cropElevations dem6 poly6 = [] := by
      have hminx : pyint (max 0 poly6.minx) = 2 := by norm_num [poly6, pyint]
      have hminy : pyint (max 0 poly6.miny) = 2 := by norm_num [poly6, pyint]
      have hmaxx : pyint (min (dem6.w : ℚ) poly6.maxx) = 3 := by
        norm_num [poly6, dem6, pyint]
      have hmaxy : pyint (min (dem6.h : ℚ) poly6.maxy) = 3 := by
        norm_num [poly6, dem6, pyint]
      rw [cropElevations, hminx, hminy, hmaxx, hmaxy]
      norm_num [List.range_succ, dem6, Int.toNat_ofNat, Int.toNat_one, Int.toNat_zero]
      decide
    rw [estimate_reference_spec, ringElevations_dem6_ring6, hcrop]
    norm_num

/-- C6 amended: when the ring sample is empty, `estimate_reference_elevation`
falls back to the `method`-aggregate of all valid cells within the clamped
bounding box of the *buffer zone* (the buffered footprint), and returns
`0.0` when that is empty too; it never raises (it is a total function). -/
theorem reference_empty_ring_fallback (dem : Dem) (buffer_zone : PixPolygon)
    (method : String) (h : ringElevations dem buffer_zone = []) :
    estimate_reference_elevation dem buffer_zone method
      = (if cropElevations dem buffer_zone = [] then 0
         else refAggregate method (cropElevations dem buffer_zone)) := by
  rw [estimate_reference_elevation, h]
  by_cases hc : cropElevations dem buffer_zone = []
  · simp [hc]
  · simp [hc, List.length_eq_zero]

theorem reference_empty_ring_fallback_witness :
    estimate_reference_elevation dem6 ring6 "mean"
      = (if cropElevations dem6 ring6 = [] then 0
         else refAggregate "mean" (cropElevations dem6 ring6)) :=
  reference_empty_ring_fallback dem6 ring6 "mean" ringElevations_dem6_ring6

/-! ### Volume integration -/

/-- Cell access `depth_map[i, j]`. -/
def cellD (depth_map : List (List ℚ)) (i j : ℕ) : ℚ :=
  (depth_map.getD i []).getD j 0

/-- `calculate_volume_trapezoidal(depth_map)`: the flat sum
`np.sum(depth_map) * pixel_size**2`. The calculator field
`self.pixel_size` is passed explicitly. -/
def calculate_volume_trapezoidal (pixel_size : ℚ) (depth_map : List (List ℚ)) : ℚ :=
  let total_depth := qsum (depth_map.map qsum)
  let pixel_area := pixel_size ^ 2
  total_depth * pixel_area

/-- The Simpson weight matrix `[[1,4,1],[4,16,4],[1,4,1]]`. -/
def simpsonWeight (a b : ℕ) : ℚ :=
  (([[1, 4, 1], [4, 16, 4], [1, 4, 1]] : List (List ℚ)).getD a []).getD b 0

/-- `np.sum(block * weights)` for the 3×3 block anchored at `(i, j)`. -/
def blockVolume (depth_map : List (List ℚ)) (i j : ℕ) : ℚ :=
  qsum ((List.range 3).map (fun a =>
    qsum ((List.range 3).map (fun b =>
      cellD depth_map (i + a) (j + b) * simpsonWeight a b))))

/-- The anchors of the 3×3 stencils summed by `calculate_volume_simpsons`:
`i in range(0, h, 2)`, `j in range(0, w, 2)` restricted by
`i + 2 < h and j + 2 < w`. Anchors step by 2 while each stencil spans 3
cells, so adjacent stencils share an edge row resp. column. -/
def stencilStarts (h w : ℕ) : List (ℕ × ℕ) :=
  (((List.range' 0 ((h + 1) / 2) 2).filter (fun i => i + 2 < h)).map (fun i =>
    ((List.range' 0 ((w + 1) / 2) 2).filter (fun j => j + 2 < w)).map (fun j =>
      (i, j)))).flatten

/-- The cells covered by the 3×3 stencil anchored at `s`. -/
def stencilCells (s : ℕ × ℕ) : List (ℕ × ℕ) :=
  ((List.range 3).map (fun a =>
    (List.range 3).map (fun b => (s.1 + a, s.2 + b)))).flatten

/-- `calculate_volume_simpsons(depth_map)`: falls back to the flat sum when
either dimension is `< 3`; trims the last row/column when a dimension is
even; sums the weighted 3×3 blocks anchored at the `stencilStarts` and
scales by `pixel_size² / 9`. -/
def calculate_volume_simpsons (pixel_size : ℚ) (depth_map : List (List ℚ)) : ℚ :=
  let h := depth_map.length
  let w := (depth_map.headD []).length
  if h < 3 ∨ w < 3 then calculate_volume_trapezoidal pixel_size depth_map
  else
    let dm1 := if h % 2 = 0 then depth_map.dropLast else depth_map
    let h1 := if h % 2 = 0 then h - 1 else h
    let dm2 := if w % 2 = 0 then dm1.map List.dropLast else dm1
    let w1 := if w % 2 = 0 then w - 1 else w
    let volume := qsum ((stencilStarts h1 w1).map (fun s => blockVolume dm2 s.1 s.2))
    volume * pixel_size ^ 2 / 9

/-- `calculate_volume_montecarlo(depth_map, n_samples)`: the stream of
`np.random.randint` draws is the explicit `samples` list (the seedable
random source), `n_samples = samples.length`; the sampled depths are
averaged and multiplied by `h·w·pixel_size²`. -/
def calculate_volume_montecarlo (pixel_size : ℚ) (depth_map : List (List ℚ))
    (samples : List (ℕ × ℕ)) : ℚ :=
  let h := depth_map.length
  let w := (depth_map.headD []).length
  let total_depth := qsum (samples.map (fun s => cellD depth_map s.1 s.2))
  let avg_depth := total_depth / (samples.length : ℚ)
  let total_area := (h : ℚ) * (w : ℚ) * pixel_size ^ 2
  avg_depth * total_area

/-- C7: all three integration methods scale exactly quadratically in the
pixel size (Monte Carlo under the same random draws); in exact rational
arithmetic the floating tolerance is not needed. -/
theorem volume_methods_scale_quadratically (depth_map : List (List ℚ))
    (pixel_size k : ℚ) (_hk : 0 < k) :
    calculate_volume_trapezoidal (k * pixel_size) depth_map
      = k ^ 2 * calculate_volume_trapezoidal pixel_size depth_map
    ∧ calculate_volume_simpsons (k * pixel_size) depth_map
      = k ^ 2 * calculate_volume_simpsons pixel_size depth_map
    ∧ ∀ draws : List (ℕ × ℕ),
        calculate_volume_montecarlo (k * pixel_size) depth_map draws
          = k ^ 2 * calculate_volume_montecarlo pixel_size depth_map draws := by
  refine ⟨?_, ?_, ?_⟩
  · unfold calculate_volume_trapezoidal
    ring
  · unfold calculate_volume_simpsons
    by_cases hc : depth_map.length < 3 ∨ (depth_map.headD []).length < 3
    · rw [if_pos hc, if_pos hc]
      unfold calculate_volume_trapezoidal
      ring
    · rw [if_neg hc, if_neg hc]
      ring
  · intro draws
    unfold calculate_volume_montecarlo
    ring

theorem volume_methods_scale_quadratically_witness :
    calculate_volume_trapezoidal (2 * 3) [[1, 2], [3, 4]]
      = 2 ^ 2 * calculate_volume_trapezoidal 3 [[1, 2], [3, 4]] :=
  (volume_methods_scale_quadratically [[1, 2], [3, 4]] 3 2 (by norm_num)).1

/-- A 5×5 depth grid whose only non-zero cell (value 1) sits at row 2,
col 0 — a cell on the edge shared by the stencils anchored at (0,0) and
(2,0). -/
def gC5 : List (List ℚ) :=
  [[0, 0, 0, 0, 0], [0, 0, 0, 0, 0], [1, 0, 0, 0, 0], [0, 0, 0, 0, 0], [0, 0, 0, 0, 0]]

unseal Rat.add Rat.mul Rat.inv Rat.sub in
theorem simpsons_gC5 : calculate_volume_simpsons 3 gC5 = 2 := by decide

/-- C5 counterexample: the 3×3 stencils summed by
`calculate_volume_simpsons` do *not* partition the grid: on a 5×5 grid the
two distinct anchors (0,0) and (2,0) both cover cell (2,0), and the
integration counts that cell in both blocks — with `pixel_size = 3`
(so `pixel_size²/9 = 1`) the volume of `gC5` is `2 = 1·w(2,0) + 1·w(0,0)`,
where a partition into disjoint stencils would weight the cell once. -/
theorem simpson_stencils_overlap :
    (0, 0) ∈ stencilStarts 5 5
    ∧ (2, 0) ∈ stencilStarts 5 5
    ∧ ((0, 0) : ℕ × ℕ) ≠ (2, 0)
    ∧ (2, 0) ∈ stencilCells (0, 0)
    ∧ (2, 0) ∈ stencilCells (2, 0)
    ∧ calculate_volume_simpsons 3 gC5 = 2 := by
  exact ⟨by decide, by decide, by decide, by decide, by decide, simpsons_gC5⟩

/-- C5 amended: `calculate_volume_simpsons` falls back to the flat sum
whenever either grid dimension is below 3; otherwise it trims the last
row/column of an even dimension — leaving both dimensions odd — and sums
the `[[1,4,1],[4,16,4],[1,4,1]]`-weighted 3×3 blocks anchored at every even
(row, column) pair with `i+2 < h`, `j+2 < w` (adjacent stencils share an
edge row/column), scaling the sum by `pixelSize²/9`. -/
theorem simpsons_structure (pixel_size : ℚ) (depth_map : List (List ℚ)) :
    (depth_map.length < 3 ∨ (depth_map.headD []).length < 3 →
      calculate_volume_simpsons pixel_size depth_map
        = calculate_volume_trapezoidal pixel_size depth_map)
    ∧ (3 ≤ depth_map.length → 3 ≤ (depth_map.headD []).length →
      (calculate_volume_simpsons pixel_size depth_map
        = qsum ((stencilStarts
              (if depth_map.length % 2 = 0 then depth_map.length - 1 else depth_map.length)
              (if (depth_map.headD []).length % 2 = 0 then (depth_map.headD []).length - 1
               else (depth_map.headD []).length)).map
            (fun s => blockVolume
              (if (depth_map.headD []).length % 2 = 0 then
                (if depth_map.length % 2 = 0 then depth_map.dropLast else depth_map).map
                  List.dropLast
               else (if depth_map.length % 2 = 0 then depth_map.dropLast else depth_map))
              s.1 s.2))
          * pixel_size ^ 2 / 9
      ∧ (if depth_map.length % 2 = 0 then depth_map.length - 1 else depth_map.length) % 2 = 1
      ∧ (if (depth_map.headD []).length % 2 = 0 then (depth_map.headD []).length - 1
         else (depth_map.headD []).length) % 2 = 1)) := by
  constructor
  · intro hc
    unfold calculate_volume_simpsons
    rw [if_pos hc]
  · intro hh hw
    have hc : ¬ (depth_map.length < 3 ∨ (depth_map.headD []).length < 3) := by omega
    refine ⟨?_, ?_, ?_⟩
    · unfold calculate_volume_simpsons
      rw [if_neg hc]
    · by_cases h2 : depth_map.length % 2 = 0
      · rw [if_pos h2]; omega
      · rw [if_neg h2]; omega
    · by_cases h2 : (depth_map.headD []).length % 2 = 0
      · rw [if_pos h2]; omega
      · rw [if_neg h2]; omega

theorem simpsons_structure_witness :
    (if gC5.length % 2 = 0 then gC5.length - 1 else gC5.length) % 2 = 1 :=
  ((simpsons_structure 3 gC5).2 (by decide) (by decide)).2.1

/-- Scenario E raster: a 12×12 grid, elevation 90 on the 10×10 block of
cells (0..9, 0..9) and 100 on the surrounding ring. -/
def demE : Dem := ⟨12, 12, fun y x => if x ≤ 9 ∧ y ≤ 9 then 90 else 100⟩

/-- Scenario E footprint: box(-0.5, -0.5, 10, 10) in pixel coordinates —
its strict interior contains exactly the 100 integer cell centers
(0..9, 0..9) (centers with coordinate 10 lie on the boundary and are not
contained). -/
def footprintE : PixPolygon :=
  ⟨-1/2, -1/2, 10, 10, fun x y => decide (0 ≤ x ∧ x ≤ 9 ∧ 0 ≤ y ∧ y ≤ 9)⟩

deriving instance DecidableEq for Except

unseal Rat.add Rat.mul Rat.inv Rat.sub in
set_option maxRecDepth 100000 in
set_option maxHeartbeats 1000000 in
theorem calculate_depth_map_demE :
    calculate_depth_map demE footprintE 100
      = Except.ok (List.replicate 10 (List.replicate 10 (10 : ℚ)),
          ⟨10, 10, 10, 0, 100⟩) := by
  decide

unseal Rat.add Rat.mul in
theorem qsum_dmE :
    qsum ((List.replicate 10 (List.replicate 10 (10 : ℚ))).map qsum) = 1000 := by
  decide

/-- C8: with reference elevation 100 over the scenario-E raster, the depth
grid over the footprint is the uniform 10×10 grid of depth 10, and the
flat-sum volume is exactly `10 · 100 · pixelSize²`. -/
theorem scenario_e_uniform_depth_volume :
    calculate_depth_map demE footprintE 100
      = Except.ok (List.replicate 10 (List.replicate 10 (10 : ℚ)),
          ⟨10, 10, 10, 0, 100⟩)
    ∧ ∀ pixel_size : ℚ,
        calculate_volume_trapezoidal pixel_size
            (List.replicate 10 (List.replicate 10 (10 : ℚ)))
          = 10 * 100 * pixel_size ^ 2 := by
  refine ⟨calculate_depth_map_demE, ?_⟩
  intro pixel_size
  unfold calculate_volume_trapezoidal
  rw [qsum_dmE]
  ring

/-! ### Aggregation (`aggregate_results`) -/

/-- The fields of one entry of the `results` list consumed by
`DepthVolumeCalculator.aggregate_results`. -/
structure MineResult where
  volume_cubic_meters : ℚ
  area_square_meters : ℚ
  average_depth_meters : ℚ
  max_depth_meters : ℚ
  deriving DecidableEq

/-- Python's builtin `max()` over a sequence: raises
`ValueError: max() arg is an empty sequence` on an empty one. -/
def pymax : List ℚ → Except String ℚ
  | [] => Except.error "max() arg is an empty sequence"
  | x :: xs => Except.ok (xs.foldl max x)

/-- The aggregate dict built by `aggregate_results`. -/
structure AggregateStats where
  total_number_of_mines : ℕ
  total_excavation_volume_cubic_meters : ℚ
  total_excavation_volume_cubic_feet : ℚ
  total_mining_area_square_meters : ℚ
  total_mining_area_hectares : ℚ
  average_depth_across_all_mines : ℚ
  maximum_depth_across_all_mines : ℚ
  average_volume_per_mine : ℚ
  deriving DecidableEq

/-- `DepthVolumeCalculator.aggregate_results(results)`. The totals are
`sum`s (0 on an empty list); `avg_depth = np.mean(...)` yields NaN plus a
runtime warning on an empty list, not an exception (modelled by the junk
value 0, which is never observable because `max()` raises first);
`max_depth = max(...)` raises `ValueError` on an empty sequence; the only
emptiness-guarded field is `average_volume_per_mine`. -/
def aggregate_results (results : List MineResult) : Except String AggregateStats :=
  let total_volume := qsum (results.map (·.volume_cubic_meters))
  let total_area := qsum (results.map (·.area_square_meters))
  let avg_depth := npMean (results.map (·.average_depth_meters))
  match pymax (results.map (·.max_depth_meters)) with
  | Except.error e => Except.error e
  | Except.ok max_depth =>
    Except.ok
      { total_number_of_mines := results.length
        total_excavation_volume_cubic_meters := total_volume
        total_excavation_volume_cubic_feet := total_volume * (353147 / 10000)
        total_mining_area_square_meters := total_area
        total_mining_area_hectares := total_area / 10000
        average_depth_across_all_mines := avg_depth
        maximum_depth_across_all_mines := max_depth
        average_volume_per_mine :=
          if results.isEmpty then 0 else total_volume / (results.length : ℚ) }

/-- C10: `aggregate_results` is only defined for a non-empty result list:
on the empty list Python's `max()` over the (empty) depth column raises
`ValueError` before the guarded `average_volume_per_mine` expression is
reached (`np.mean` before it yields NaN with a warning, not an exception);
on any non-empty list the aggregate dict is produced. -/
theorem aggregate_results_empty_raises :
    aggregate_results [] = Except.error "max() arg is an empty sequence"
    ∧ ∀ results : List MineResult, results ≠ [] →
        ∃ agg, aggregate_results results = Except.ok agg := by
  constructor
  · rfl
  · intro results h
    obtain ⟨x, xs, rfl⟩ := List.exists_cons_of_ne_nil h
    exact ⟨_, rfl⟩

theorem aggregate_results_empty_raises_witness :
    ∃ agg, aggregate_results [⟨100, 50, 2, 4⟩] = Except.ok agg :=
  aggregate_results_empty_raises.2 [⟨100, 50, 2, 4⟩] (List.cons_ne_nil _ _)

end MineDetection
